import Mathlib

/-!
# Verification of the hermes2d nonlinear-solve core against its specification

This file gives a shallow embedding of the parts of the hermes2d repository
that the specification speaks about, and proves (or refutes) the spec's
claims over that embedding.

The repository sources available are `src/hermes2d/src/h2d_logging.h`
(the logging macro layer) and
`src/hermes2d/test_examples/2-06-bc-newton/tests/main.cpp` (the regression
test driving the solve pipeline).  The solve pipeline itself
(`H1Space`, `DiscreteProblem`, `NewtonSolver`, `solve_newton`) is not part
of the available sources; where a claim depends on it, the corresponding
definition is modelled from the specification's words and is marked
`Modelled from the spec:` in its doc comment.
-/

/- ======================================================================
   Part 1: the logging macro layer, embedded from
   src/hermes2d/src/h2d_logging.h.
   ====================================================================== -/

/-- The set of preprocessor directives relevant to h2d_logging.h.  Each
field records whether the corresponding directive is defined at compile
time.  `dbg` models `defined(_DEBUG) || !defined(NDEBUG)`. -/
structure CompileCfg where
  report_all : Bool
  report_warning : Bool
  report_intr_warning : Bool
  report_info : Bool
  report_verbose : Bool
  report_trc : Bool
  report_time : Bool
  runtime_control : Bool
  dbg : Bool
deriving DecidableEq

/-- The runtime report-control variables `__h2d_report_*` declared in
h2d_logging.h (lines 126-132), meaningful when `H2D_REPORT_RUNTIME_CONTROL`
is defined. -/
structure RuntimeCfg where
  warn : Bool
  warn_intr : Bool
  info : Bool
  verbose : Bool
  trc : Bool
  time : Bool
  dbg : Bool
deriving DecidableEq

/-- Effect of `H2D_REPORT_ALL` (h2d_logging.h lines 107-119): when defined
it defines `H2D_REPORT_WARNING`. -/
def effWarning (cc : CompileCfg) : Bool := cc.report_warning || cc.report_all

/-- Effect of `H2D_REPORT_ALL` on `H2D_REPORT_INFO`. -/
def effInfo (cc : CompileCfg) : Bool := cc.report_info || cc.report_all

/-- Effect of `H2D_REPORT_ALL` on `H2D_REPORT_VERBOSE`. -/
def effVerbose (cc : CompileCfg) : Bool := cc.report_verbose || cc.report_all

/-- Effect of `H2D_REPORT_ALL` on `H2D_REPORT_TRACE`. -/
def effTrc (cc : CompileCfg) : Bool := cc.report_trc || cc.report_all

/-- Effect of `H2D_REPORT_ALL` on `H2D_REPORT_TIME`. -/
def effTime (cc : CompileCfg) : Bool := cc.report_time || cc.report_all

/-- `H2D_RCTR(__var)` (h2d_logging.h lines 124-135): the runtime variable
when `H2D_REPORT_RUNTIME_CONTROL` is defined, the constant `true`
otherwise. -/
def H2D_RCTR (cc : CompileCfg) (v : Bool) : Bool :=
  if cc.runtime_control then v else true

/-- Whether a `warn(...)` call site emits a message
(h2d_logging.h lines 137-143): the macro expands to a log call only when
`H2D_REPORT_WARNING` (possibly via `H2D_REPORT_ALL`) or
`H2D_REPORT_RUNTIME_CONTROL` is defined, and the log call's condition is
`true && H2D_RCTR(__h2d_report_warn)`. -/
def warn_emits (cc : CompileCfg) (rv : RuntimeCfg) : Bool :=
  if effWarning cc || cc.runtime_control then true && H2D_RCTR cc rv.warn else false

/-- Whether an `info(...)` call site emits a message
(h2d_logging.h lines 149-155). -/
def info_emits (cc : CompileCfg) (rv : RuntimeCfg) : Bool :=
  if effInfo cc || cc.runtime_control then true && H2D_RCTR cc rv.info else false

/-- Whether an `info_if(cond, ...)` call site emits a message
(h2d_logging.h line 151).  NOTE: the source gates it on
`__h2d_report_warn`, not `__h2d_report_info`. -/
def info_if_emits (cc : CompileCfg) (rv : RuntimeCfg) (cond : Bool) : Bool :=
  if effInfo cc || cc.runtime_control then cond && H2D_RCTR cc rv.warn else false

/-- Whether a `verbose(...)` call site emits a message
(h2d_logging.h lines 156-160). -/
def verbose_emits (cc : CompileCfg) (rv : RuntimeCfg) : Bool :=
  if effVerbose cc || cc.runtime_control then true && H2D_RCTR cc rv.verbose else false

/-- Whether a `trace(...)` call site emits a message
(h2d_logging.h lines 161-165). -/
def trc_emits (cc : CompileCfg) (rv : RuntimeCfg) : Bool :=
  if effTrc cc || cc.runtime_control then true && H2D_RCTR cc rv.trc else false

/-- Whether a `report_time(...)` call site emits a message
(h2d_logging.h lines 166-170). -/
def report_time_emits (cc : CompileCfg) (rv : RuntimeCfg) : Bool :=
  if effTime cc || cc.runtime_control then true && H2D_RCTR cc rv.time else false

/-- Whether a `debug_log(...)` call site emits a message
(h2d_logging.h lines 171-175). -/
def debug_log_emits (cc : CompileCfg) (rv : RuntimeCfg) : Bool :=
  if cc.dbg || cc.runtime_control then true && H2D_RCTR cc rv.dbg else false

/-- Outcome of a call as seen by the caller: did control return, or did the
process terminate. -/
inductive ProcOutcome where
  | terminated : ProcOutcome
  | returned : ProcOutcome
deriving DecidableEq

/-- The log accumulated so far (the file/console sink). -/
structure LogCtx where
  lines : List String
deriving DecidableEq

/-- Modelled from the spec: `hermes_log_message_if` of hermes_common
(declared, not defined, in the available sources): if the condition holds
it writes the message to the log and reports `true`, otherwise it writes
nothing and reports `false`. -/
def hermes_log_message_if (cond : Bool) (msg : String) (ctx : LogCtx) :
    Bool × LogCtx :=
  if cond then (true, ⟨ctx.lines ++ [msg]⟩) else (false, ctx)

/-- Modelled from the spec: `hermes_exit_if` of hermes_common (declared,
not defined, in the available sources): terminates the process when the
condition holds, otherwise returns control. -/
def hermes_exit_if (cond : Bool) : ProcOutcome :=
  if cond then ProcOutcome.terminated else ProcOutcome.returned

/-- The `error(...)` macro of h2d_logging.h line 98:
`hermes_exit_if(hermes_log_message_if(true, ..., __VA_ARGS__))`. -/
def error (msg : String) (ctx : LogCtx) : ProcOutcome × LogCtx :=
  let r := hermes_log_message_if true msg ctx
  (hermes_exit_if r.1, r.2)

/- ======================================================================
   Part 1b: FunctionSpace / DOF manager, modelled from spec section 4.1
   (the H1Space sources are not under src; only the test caller is).
   ====================================================================== -/

/-- Modelled from the spec: a basis family exposing its degrees of freedom
per polynomial order (the shapeset is an excluded collaborator; only this
count is needed by the DOF manager). -/
structure BasisFamily where
  dofsPerOrder : ℕ → ℕ
deriving Inhabited

/-- Modelled from the spec: an active mesh element carrying a boundary
marker (0 when interior). -/
structure MeshElem where
  marker : ℕ
deriving DecidableEq

/-- Modelled from the spec: a mesh as its list of active elements. -/
structure Mesh where
  elements : List MeshElem
deriving DecidableEq

/-- Modelled from the spec: the set of boundary markers carrying essential
(Dirichlet) boundary conditions. -/
structure EssentialBCs where
  markers : List ℕ
deriving DecidableEq

/-- Modelled from the spec: one basis function of a space, recording the
element index it is attached to and whether it is supported on an
essential-boundary-condition region (in which case its value is
prescribed and it carries no free DOF). -/
structure BasisFn where
  elem : ℕ
  essential : Bool
deriving DecidableEq

/-- Modelled from the spec: the basis functions contributed by the active
elements from position `i` on, for a uniform order `p`: each active
element contributes `dofsPerOrder p` free basis functions, and elements
whose marker carries an essential condition additionally contribute a
constrained basis function whose value is prescribed externally. -/
def buildBasisAux (fam : BasisFamily) (bcs : EssentialBCs) (p : ℕ) :
    List MeshElem → ℕ → List BasisFn
  | [], _ => []
  | e :: rest, i =>
    (List.replicate (fam.dofsPerOrder p) ⟨i, false⟩ ++
      (if e.marker ∈ bcs.markers then [⟨i, true⟩] else [])) ++
    buildBasisAux fam bcs p rest (i + 1)

/-- Modelled from the spec: the basis of the space over a mesh with
essential boundary conditions at uniform order `p`. -/
def buildBasis (fam : BasisFamily) (mesh : Mesh) (bcs : EssentialBCs)
    (p : ℕ) : List BasisFn :=
  buildBasisAux fam bcs p mesh.elements 0

/-- Number of free (unconstrained) basis functions: the `ndof` of the
space. -/
def countFree (basis : List BasisFn) : ℕ :=
  (basis.filter (fun b => !b.essential)).length

/-- Modelled from the spec: deterministic DOF numbering.  Free basis
functions receive consecutive indices starting from `next`; basis
functions on essential-boundary-condition regions receive no free index
(their prescribed values are tracked separately). -/
def assignDofs : List BasisFn → ℕ → List (BasisFn × Option ℕ)
  | [], _ => []
  | b :: rest, next =>
    if b.essential then (b, none) :: assignDofs rest next
    else (b, some next) :: assignDofs rest (next + 1)

/-- The DOF map of a basis: numbering starting at 0. -/
def dofMap (basis : List BasisFn) : List (BasisFn × Option ℕ) :=
  assignDofs basis 0

/-- Modelled from the spec: the state of a function space, with the lazily
computed `ndof` cache (`get_num_dofs` triggers renumbering when the cache
was invalidated). -/
structure SpaceState where
  fam : BasisFamily
  mesh : Mesh
  bcs : EssentialBCs
  order : ℕ
  cachedNdof : Option ℕ

/-- The basis of a space state at its current uniform order. -/
def spaceBasis (s : SpaceState) : List BasisFn :=
  buildBasis s.fam s.mesh s.bcs s.order

/-- Modelled from the spec: `set_uniform_order(p)` assigns order `p` to
every active element and invalidates the previously computed DOF map. -/
def set_uniform_order (s : SpaceState) (p : ℕ) : SpaceState :=
  { s with order := p, cachedNdof := none }

/-- Modelled from the spec: `get_num_dofs()` triggers DOF (re)numbering
when the space was invalidated, then returns `ndof`; the updated space
state is returned alongside. -/
def get_num_dofs (s : SpaceState) : ℕ × SpaceState :=
  match s.cachedNdof with
  | some nd => (nd, s)
  | none =>
    let nd := countFree (spaceBasis s)
    (nd, { s with cachedNdof := some nd })

/- ======================================================================
   Part 1c: Assembler (DiscreteProblem), modelled from spec section 4.2
   (the assembler sources are not under src; only the test caller is).
   ====================================================================== -/

/-- The error kinds of spec section 7. -/
inductive ErrorKind where
  | InvalidOrder : ErrorKind
  | DOFError : ErrorKind
  | AssemblyFailure : ErrorKind
  | Singular : ErrorKind
  | Breakdown : ErrorKind
  | BackendError : ErrorKind
deriving DecidableEq

/-- Modelled from the spec: a numeric value produced by a weak-form
evaluation at a quadrature point — either a finite rational or a
non-finite value (NaN/Inf). -/
inductive NumVal where
  | val : ℚ → NumVal
  | nonfinite : NumVal
deriving DecidableEq

/-- Modelled from the spec: one local contribution to the global residual,
a target row DOF and the evaluated value. -/
structure LocalContrib (n : ℕ) where
  row : Fin n
  value : NumVal

/-- Modelled from the spec: accumulate one local contribution into the
global residual; a non-finite contribution makes assembly fail with
`AssemblyFailure` instead of being written into the global system. -/
def addContrib {n : ℕ} (res : Fin n → ℚ) (c : LocalContrib n) :
    Except ErrorKind (Fin n → ℚ) :=
  match c.value with
  | NumVal.val q => Except.ok (fun i => if i = c.row then res i + q else res i)
  | NumVal.nonfinite => Except.error ErrorKind.AssemblyFailure

/-- Modelled from the spec: fold a list of local contributions into the
global residual, aborting at the first failure. -/
def assembleContribs {n : ℕ} :
    List (LocalContrib n) → (Fin n → ℚ) → Except ErrorKind (Fin n → ℚ)
  | [], res => Except.ok res
  | c :: rest, res =>
    match addContrib res c with
    | Except.ok res2 => assembleContribs rest res2
    | Except.error e => Except.error e

/-- Modelled from the spec: a weak form as an ordered collection of
integral terms; each term evaluates the unknown field to its list of
local contributions (quadrature already folded in). -/
structure WeakForm (n : ℕ) where
  terms : List ((Fin n → ℚ) → List (LocalContrib n))

/-- Modelled from the spec: one assembly pass producing the global
residual `F(u)` from a zeroed accumulator. -/
def assembleResidual {n : ℕ} (wf : WeakForm n) (u : Fin n → ℚ) :
    Except ErrorKind (Fin n → ℚ) :=
  assembleContribs (wf.terms.flatMap (fun t => t u)) 0

/- ======================================================================
   Part 1d: NewtonSolver and the caller-facing solve entry point,
   modelled from spec sections 4.4 and 6 (the solver sources are not
   under src; only the test caller is).
   ====================================================================== -/

/-- The residual norm used by the model: the 1-norm of a rational
vector. -/
def normQ {n : ℕ} (v : Fin n → ℚ) : ℚ := ∑ i, |v i|

/-- Modelled from the spec: the NewtonSolver state machine
`Init → Iterating → {Converged, Diverged, MaxIterExceeded,
SolverFailed}`. -/
inductive NewtonState where
  | Init : NewtonState
  | Iterating : NewtonState
  | Converged : NewtonState
  | Diverged : NewtonState
  | MaxIterExceeded : NewtonState
  | SolverFailed : NewtonState
deriving DecidableEq

/-- Modelled from the spec: the outcome of a Newton run — the final state,
the iteration count and the final coefficient vector. -/
structure NewtonResult (n : ℕ) where
  state : NewtonState
  iters : ℕ
  u : Fin n → ℚ

/-- Modelled from the spec: the assembler as seen by the Newton loop —
given the coefficient vector it produces the global residual `F(u)` and
the global Jacobian `J(u)`. -/
structure DiscreteProblem (n : ℕ) where
  residual : (Fin n → ℚ) → Fin n → ℚ
  jacobian : (Fin n → ℚ) → Matrix (Fin n) (Fin n) ℚ

/-- Modelled from the spec: the pluggable linear-solver capability — given
(matrix, right-hand side) it returns a solution vector or fails. -/
structure LinSolver (n : ℕ) where
  solve : Matrix (Fin n) (Fin n) ℚ → (Fin n → ℚ) → Option (Fin n → ℚ)

/-- Modelled from the spec: the damped Newton loop.  Each iteration
assembles `F(u)` and `J(u)`, solves `J·Δu = −F`, updates
`u ← u + α·Δu` and recomputes the residual norm; it transitions to
`Converged` when the norm falls below the tolerance, to `Diverged` when
the norm grows beyond the configured growth factor, to `SolverFailed`
when the linear solve fails, and to `MaxIterExceeded` when the iteration
budget is exhausted. -/
def newtonLoop {n : ℕ} (dp : DiscreteProblem n) (ls : LinSolver n)
    (alpha tol growth : ℚ) :
    ℕ → ℕ → ℚ → (Fin n → ℚ) → NewtonResult n
  | 0, iters, _, u => ⟨NewtonState.MaxIterExceeded, iters, u⟩
  | fuel + 1, iters, rprev, u =>
    match ls.solve (dp.jacobian u) (fun i => -(dp.residual u i)) with
    | none => ⟨NewtonState.SolverFailed, iters, u⟩
    | some du =>
      let u2 := fun i => u i + alpha * du i
      let r2 := normQ (dp.residual u2)
      if r2 < tol then ⟨NewtonState.Converged, iters + 1, u2⟩
      else if growth * rprev < r2 then ⟨NewtonState.Diverged, iters + 1, u2⟩
      else newtonLoop dp ls alpha tol growth fuel (iters + 1) r2 u2

/-- Modelled from the spec: a full Newton run from the initial guess
`u0` with at most `maxIter` iterations. -/
def newtonSolve {n : ℕ} (dp : DiscreteProblem n) (ls : LinSolver n)
    (alpha tol growth : ℚ) (maxIter : ℕ) (u0 : Fin n → ℚ) :
    NewtonResult n :=
  newtonLoop dp ls alpha tol growth maxIter 0 (normQ (dp.residual u0)) u0

/-- Modelled from the spec: the Newton policy configuration — damping
factor, residual-norm tolerance, divergence growth factor and maximum
iteration count. -/
structure NewtonConfig where
  alpha : ℚ
  tol : ℚ
  growth : ℚ
  maxIter : ℕ

/-- Modelled from the spec: the caller-facing solve entry point
(`solve_newton` of tests/main.cpp line 73).  It accepts the caller-owned
coefficient-vector buffer, the Assembler, the Solver and the caller-owned
matrix and right-hand-side scratch buffers, and returns a boolean-like
success flag together with the updated coefficient-vector buffer
(in-place mutation is rendered as state passing). -/
def solve_newton {n : ℕ} (coeff_vec : Fin n → ℚ) (dp : DiscreteProblem n)
    (solver : LinSolver n) (mtx : Matrix (Fin n) (Fin n) ℚ)
    (rhs : Fin n → ℚ) (cfg : NewtonConfig) : Bool × (Fin n → ℚ) :=
  let r := newtonSolve dp solver cfg.alpha cfg.tol cfg.growth cfg.maxIter
    coeff_vec
  (decide (r.state = NewtonState.Converged), r.u)

/- ======================================================================
   Part 2: the regression test's acceptance criterion, embedded from
   src/hermes2d/test_examples/2-06-bc-newton/tests/main.cpp.
   ====================================================================== -/

/-- The expected coefficient-vector sums hard-coded in tests/main.cpp
lines 87-96, one per uniform polynomial order `p_init` in 1..10. -/
def expected_sum (p : ℕ) : ℚ :=
  if p = 1 then 618227/10000 else
  if p = 2 then 608105/10000 else
  if p = 3 then 615511/10000 else
  if p = 4 then 608191/10000 else
  if p = 5 then 615304/10000 else
  if p = 6 then 608064/10000 else
  if p = 7 then 615323/10000 else
  if p = 8 then 607863/10000 else
  if p = 9 then 615408/10000 else
  if p = 10 then 607637/10000 else 0

/-- The per-order acceptance check of tests/main.cpp lines 87-96: the test
clears `success` iff `fabs(sum - expected) > 1e-1`, so a sum is accepted
iff it lies within absolute tolerance 1/10 of the expected value. -/
def test_accepts (p : ℕ) (sum : ℚ) : Bool :=
  decide (¬ |sum - expected_sum p| > 1/10)

/-- Modelled from the spec: the converged coefficient-vector sum of the
reference two-material heat-conduction problem at uniform order `p`.  The
FEM pipeline and the mesh file `domain.mesh` are not among the available
sources, so the sums are taken at the spec's nominal regression values
(61.8227 for p=1, 60.8105 for p=2, 61.5304 for p=5). -/
def reference_coeff_sum (p : ℕ) : ℚ :=
  if p = 1 then 618227/10000 else
  if p = 2 then 608105/10000 else
  if p = 5 then 615304/10000 else expected_sum p

/- ======================================================================
   Theorems for the logging and regression claims.
   ====================================================================== -/

/-- C1: for the reference two-material heat-conduction problem, the
converged coefficient-vector sum (modelled from the spec) is 61.8227
within 0.1 for p=1, 60.8105 within 0.1 for p=2, and 61.5304 within 0.1
for p=5, and each value passes the regression test's acceptance check
embedded from tests/main.cpp. -/
theorem C1_regression_sums :
    (|reference_coeff_sum 1 - 618227/10000| ≤ 1/10 ∧
      test_accepts 1 (reference_coeff_sum 1) = true) ∧
    (|reference_coeff_sum 2 - 608105/10000| ≤ 1/10 ∧
      test_accepts 2 (reference_coeff_sum 2) = true) ∧
    (|reference_coeff_sum 5 - 615304/10000| ≤ 1/10 ∧
      test_accepts 5 (reference_coeff_sum 5) = true) := by
  norm_num [reference_coeff_sum, expected_sum, test_accepts]

/-- Splitting the free-DOF count over a concatenation. -/
theorem countFree_append (a b : List BasisFn) :
    countFree (a ++ b) = countFree a + countFree b := by
  simp [countFree, List.filter_append]

/-- A free basis function adds one to the free-DOF count. -/
theorem countFree_cons_free (i : ℕ) (l : List BasisFn) :
    countFree (⟨i, false⟩ :: l) = countFree l + 1 := by
  simp [countFree, List.filter_cons]

/-- A constrained basis function adds nothing to the free-DOF count. -/
theorem countFree_cons_ess (i : ℕ) (l : List BasisFn) :
    countFree (⟨i, true⟩ :: l) = countFree l := by
  simp [countFree, List.filter_cons]

/-- The free-DOF count of a block of replicated free basis functions. -/
theorem countFree_replicate (k i : ℕ) :
    countFree (List.replicate k (⟨i, false⟩ : BasisFn)) = k := by
  induction k with
  | zero => rfl
  | succ n ih => rw [List.replicate_succ, countFree_cons_free, ih]

/-- The free-DOF count of the uniform-order basis depends only on the
number of active elements and the family's DOFs per order. -/
theorem countFree_buildBasisAux (fam : BasisFamily) (bcs : EssentialBCs)
    (p : ℕ) (l : List MeshElem) (i : ℕ) :
    countFree (buildBasisAux fam bcs p l i) =
      l.length * fam.dofsPerOrder p := by
  induction l generalizing i with
  | nil => simp [buildBasisAux, countFree]
  | cons e rest ih =>
    rw [buildBasisAux, countFree_append, countFree_append,
      countFree_replicate, ih]
    have hz : countFree (if e.marker ∈ bcs.markers
        then [(⟨i, true⟩ : BasisFn)] else []) = 0 := by
      split
      · rw [show [(⟨i, true⟩ : BasisFn)] = ⟨i, true⟩ :: [] from rfl,
          countFree_cons_ess]
        rfl
      · rfl
    rw [hz, List.length_cons]
    ring

/-- ndof of the uniform-order space. -/
theorem countFree_buildBasis (fam : BasisFamily) (mesh : Mesh)
    (bcs : EssentialBCs) (p : ℕ) :
    countFree (buildBasis fam mesh bcs p) =
      mesh.elements.length * fam.dofsPerOrder p :=
  countFree_buildBasisAux fam bcs p mesh.elements 0

/-- The free indices handed out by `assignDofs` starting at `next` are
exactly the interval of length `countFree l` starting at `next`. -/
theorem assignDofs_indices (l : List BasisFn) (next : ℕ) :
    (assignDofs l next).filterMap Prod.snd =
      List.range' next (countFree l) := by
  induction l generalizing next with
  | nil => rfl
  | cons b rest ih =>
    obtain ⟨i, ess⟩ := b
    cases ess with
    | false =>
      rw [show assignDofs (⟨i, false⟩ :: rest) next
            = (⟨i, false⟩, some next) :: assignDofs rest (next + 1) from rfl,
        countFree_cons_free, List.range'_succ, List.filterMap_cons]
      simp [ih]
    | true =>
      rw [show assignDofs (⟨i, true⟩ :: rest) next
            = (⟨i, true⟩, none) :: assignDofs rest next from rfl,
        countFree_cons_ess, List.filterMap_cons]
      simp [ih]

/-- Constrained basis functions never receive a free index from
`assignDofs`. -/
theorem assignDofs_essential_none (l : List BasisFn) (next : ℕ) :
    ∀ pr ∈ assignDofs l next, pr.1.essential = true → pr.2 = none := by
  induction l generalizing next with
  | nil => intro pr h; simp [assignDofs] at h
  | cons b rest ih =>
    intro pr hpr hess
    by_cases hb : b.essential = true
    · rw [assignDofs, if_pos hb] at hpr
      rcases List.mem_cons.mp hpr with h | h
      · rw [h]
      · exact ih next pr h hess
    · rw [assignDofs, if_neg hb] at hpr
      rcases List.mem_cons.mp hpr with h | h
      · rw [h] at hess
        exact absurd hess hb
      · exact ih (next + 1) pr h hess

/-- C3: `get_num_dofs` is deterministic and idempotent — a second call
without intervening mutation returns the same ndof, the same space state
and the identical DOF mapping — and after `set_uniform_order p` the value
returned by `get_num_dofs` equals `(active element count) * (basis-family
DOFs per order p)`, so it depends only on `p`, the active element count
and the family; in particular two spaces agreeing on those data agree on
the value. -/
theorem C3_get_num_dofs_deterministic (s t : SpaceState) (p : ℕ)
    (hfam : s.fam = t.fam)
    (hlen : s.mesh.elements.length = t.mesh.elements.length) :
    ((get_num_dofs s).1 = (get_num_dofs (get_num_dofs s).2).1 ∧
     (get_num_dofs s).2 = (get_num_dofs (get_num_dofs s).2).2 ∧
     dofMap (spaceBasis (get_num_dofs s).2) =
       dofMap (spaceBasis (get_num_dofs (get_num_dofs s).2).2)) ∧
    ((get_num_dofs (set_uniform_order s p)).1 =
       s.mesh.elements.length * s.fam.dofsPerOrder p ∧
     (get_num_dofs (set_uniform_order s p)).1 =
       (get_num_dofs (set_uniform_order t p)).1) := by
  constructor
  · match hc : s.cachedNdof with
    | some nd =>
      simp [get_num_dofs, hc]
    | none =>
      simp [get_num_dofs, hc]
  · have hs : (get_num_dofs (set_uniform_order s p)).1 =
        s.mesh.elements.length * s.fam.dofsPerOrder p := by
      simp [get_num_dofs, set_uniform_order, spaceBasis, countFree_buildBasis]
    have ht : (get_num_dofs (set_uniform_order t p)).1 =
        t.mesh.elements.length * t.fam.dofsPerOrder p := by
      simp [get_num_dofs, set_uniform_order, spaceBasis, countFree_buildBasis]
    exact ⟨hs, by rw [hs, ht, hfam, hlen]⟩

/-- Witness for C3 at two concrete one-element spaces over different
meshes and boundary conditions but equal element counts. -/
theorem C3_get_num_dofs_deterministic_witness :
    (SpaceState.mk ⟨fun p => p⟩ ⟨[⟨0⟩]⟩ ⟨[]⟩ 1 none).fam =
      (SpaceState.mk ⟨fun p => p⟩ ⟨[⟨7⟩]⟩ ⟨[7]⟩ 2 (some 5)).fam ∧
    (get_num_dofs (set_uniform_order
      (SpaceState.mk ⟨fun p => p⟩ ⟨[⟨0⟩]⟩ ⟨[]⟩ 1 none) 3)).1 =
      (get_num_dofs (set_uniform_order
        (SpaceState.mk ⟨fun p => p⟩ ⟨[⟨7⟩]⟩ ⟨[7]⟩ 2 (some 5)) 3)).1 :=
  ⟨rfl,
    ((C3_get_num_dofs_deterministic
      (SpaceState.mk ⟨fun p => p⟩ ⟨[⟨0⟩]⟩ ⟨[]⟩ 1 none)
      (SpaceState.mk ⟨fun p => p⟩ ⟨[⟨7⟩]⟩ ⟨[7]⟩ 2 (some 5)) 3
      rfl rfl).2).2⟩

/-- C4: for every function space built from a mesh, an order assignment
and a set of essential boundary conditions, the free DOF indices of the
DOF map form a dense bijection onto `[0, ndof)` (the list of assigned
indices is exactly `range ndof`), and no basis function supported on an
essential-boundary-condition region ever appears in the free numbering
(it is mapped to `none`). -/
theorem C4_dof_map_dense_bijection (s : SpaceState) :
    (dofMap (spaceBasis s)).filterMap Prod.snd =
      List.range (countFree (spaceBasis s)) ∧
    ∀ pr ∈ dofMap (spaceBasis s), pr.1.essential = true → pr.2 = none := by
  constructor
  · rw [dofMap, assignDofs_indices, List.range_eq_range']
  · exact assignDofs_essential_none (spaceBasis s) 0

/-- Witness for C4 at a concrete two-element space with one essential
marker. -/
theorem C4_dof_map_dense_bijection_witness :
    (dofMap (spaceBasis
        (SpaceState.mk ⟨fun p => p + 1⟩ ⟨[⟨1⟩, ⟨0⟩]⟩ ⟨[1]⟩ 2 none))).filterMap
        Prod.snd =
      List.range (countFree (spaceBasis
        (SpaceState.mk ⟨fun p => p + 1⟩ ⟨[⟨1⟩, ⟨0⟩]⟩ ⟨[1]⟩ 2 none))) :=
  (C4_dof_map_dense_bijection
    (SpaceState.mk ⟨fun p => p + 1⟩ ⟨[⟨1⟩, ⟨0⟩]⟩ ⟨[1]⟩ 2 none)).1

/-- C8: every invocation of the `error(...)` macro logs the message and
then terminates the surrounding process; it never returns control to the
caller. -/
theorem C8_error_logs_and_terminates (msg : String) (ctx : LogCtx) :
    (error msg ctx).1 = ProcOutcome.terminated ∧
    (error msg ctx).1 ≠ ProcOutcome.returned ∧
    (error msg ctx).2.lines = ctx.lines ++ [msg] := by
  refine ⟨rfl, ?_, rfl⟩
  simp [error, hermes_log_message_if, hermes_exit_if]

/-- C9 counterexample: emission of `warn(...)` is NOT determined solely by
the runtime enabled-level set.  With the runtime variables all set, a
build with `H2D_REPORT_WARNING` defined emits the warning, while a build
with no report directives defined emits nothing — the compile-time flags
decide. -/
theorem C9_counterexample :
    warn_emits ⟨false, true, false, false, false, false, false, false, false⟩
        ⟨true, true, true, true, true, true, true⟩ = true ∧
    warn_emits ⟨false, false, false, false, false, false, false, false, false⟩
        ⟨true, true, true, true, true, true, true⟩ = false := by
  decide

/-- C9 (amended): whether a core logging call emits is gated by the
compile-time directives of h2d_logging.h.  When
`H2D_REPORT_RUNTIME_CONTROL` is not defined, emission is decided entirely
at compile time and the runtime variables are ignored; when it is
defined, each level's emission equals its runtime variable
(`warn` by `__h2d_report_warn`, `info` by `__h2d_report_info`,
`verbose`, `trace`, `report_time` and `debug_log` likewise). -/
theorem C9_amended_compile_time_gating (cc : CompileCfg) (rv rv' : RuntimeCfg) :
    (cc.runtime_control = false →
      warn_emits cc rv = warn_emits cc rv' ∧
      info_emits cc rv = info_emits cc rv' ∧
      verbose_emits cc rv = verbose_emits cc rv' ∧
      trc_emits cc rv = trc_emits cc rv' ∧
      report_time_emits cc rv = report_time_emits cc rv' ∧
      debug_log_emits cc rv = debug_log_emits cc rv') ∧
    (cc.runtime_control = true →
      warn_emits cc rv = rv.warn ∧
      info_emits cc rv = rv.info ∧
      verbose_emits cc rv = rv.verbose ∧
      trc_emits cc rv = rv.trc ∧
      report_time_emits cc rv = rv.time ∧
      debug_log_emits cc rv = rv.dbg) := by
  constructor
  · intro h
    simp [warn_emits, info_emits, verbose_emits, trc_emits,
      report_time_emits, debug_log_emits, H2D_RCTR, h]
  · intro h
    simp [warn_emits, info_emits, verbose_emits, trc_emits,
      report_time_emits, debug_log_emits, H2D_RCTR, h]

/-- Witness for C9 (amended) at a concrete compile configuration with
runtime control off and two different runtime-variable settings. -/
theorem C9_amended_compile_time_gating_witness :
    (⟨true, true, true, true, true, true, true, false, true⟩ :
        CompileCfg).runtime_control = false ∧
    warn_emits ⟨true, true, true, true, true, true, true, false, true⟩
        ⟨true, true, true, true, true, true, true⟩ =
      warn_emits ⟨true, true, true, true, true, true, true, false, true⟩
        ⟨false, false, false, false, false, false, false⟩ :=
  ⟨rfl,
    ((C9_amended_compile_time_gating
      ⟨true, true, true, true, true, true, true, false, true⟩
      ⟨true, true, true, true, true, true, true⟩
      ⟨false, false, false, false, false, false, false⟩).1 rfl).1⟩

/-- C10: when `H2D_REPORT_RUNTIME_CONTROL` is defined, `info_if(cond,...)`
is gated by the runtime variable `__h2d_report_warn` rather than
`__h2d_report_info`; consequently a runtime configuration that clears
`__h2d_report_info` but keeps `__h2d_report_warn` suppresses `info(...)`
messages but not `info_if(...)` messages. -/
theorem C10_info_if_gated_by_warn (cc : CompileCfg) (rv : RuntimeCfg)
    (cond : Bool) (hrc : cc.runtime_control = true) :
    info_if_emits cc rv cond = (cond && rv.warn) ∧
    (rv.info = false → rv.warn = true →
      info_emits cc rv = false ∧ info_if_emits cc rv true = true) := by
  constructor
  · simp [info_if_emits, H2D_RCTR, hrc]
  · intro hi hw
    simp [info_emits, info_if_emits, H2D_RCTR, hrc, hi, hw]

/-- Witness for C10 at a concrete runtime-control build and a runtime
configuration with info reporting disabled and warn reporting enabled. -/
theorem C10_info_if_gated_by_warn_witness :
    (⟨false, false, false, false, false, false, false, true, false⟩ :
        CompileCfg).runtime_control = true ∧
    info_emits ⟨false, false, false, false, false, false, false, true, false⟩
      ⟨true, false, false, false, false, false, false⟩ = false ∧
    info_if_emits ⟨false, false, false, false, false, false, false, true, false⟩
      ⟨true, false, false, false, false, false, false⟩ true = true :=
  ⟨rfl,
    (C10_info_if_gated_by_warn
      ⟨false, false, false, false, false, false, false, true, false⟩
      ⟨true, false, false, false, false, false, false⟩ true rfl).2 rfl rfl⟩

/-- Assembly of a contribution list containing a non-finite value fails
with `AssemblyFailure`, whatever the accumulator. -/
theorem assembleContribs_nonfinite {n : ℕ} (l : List (LocalContrib n)) :
    ∀ res : Fin n → ℚ, (∃ c ∈ l, c.value = NumVal.nonfinite) →
      assembleContribs l res = Except.error ErrorKind.AssemblyFailure := by
  induction l with
  | nil =>
    intro res h
    obtain ⟨c, hc, _⟩ := h
    simp at hc
  | cons c rest ih =>
    intro res h
    match hv : c.value with
    | NumVal.nonfinite =>
      simp only [assembleContribs, addContrib, hv]
    | NumVal.val q =>
      simp only [assembleContribs, addContrib, hv]
      apply ih
      obtain ⟨d, hd, hdv⟩ := h
      rcases List.mem_cons.mp hd with h1 | h1
      · rw [h1] at hdv
        rw [hdv] at hv
        exact absurd hv (by simp)
      · exact ⟨d, h1, hdv⟩

/-- C6: an assembly pass in which some weak-form term produces a
non-finite intermediate value fails with `AssemblyFailure` instead of
writing a non-finite value into the global residual. -/
theorem C6_nonfinite_assembly_fails {n : ℕ} (wf : WeakForm n)
    (u : Fin n → ℚ)
    (h : ∃ t ∈ wf.terms, ∃ c ∈ t u, c.value = NumVal.nonfinite) :
    assembleResidual wf u = Except.error ErrorKind.AssemblyFailure := by
  apply assembleContribs_nonfinite
  obtain ⟨t, ht, c, hc, hv⟩ := h
  exact ⟨c, List.mem_flatMap.mpr ⟨t, ht, hc⟩, hv⟩

/-- Witness for C6: a one-term weak form injecting a non-finite value
makes assembly fail with `AssemblyFailure`. -/
theorem C6_nonfinite_assembly_fails_witness :
    assembleResidual
        (⟨[fun _ => [⟨0, NumVal.nonfinite⟩]]⟩ : WeakForm 1) 0 =
      Except.error ErrorKind.AssemblyFailure :=
  C6_nonfinite_assembly_fails ⟨[fun _ => [⟨0, NumVal.nonfinite⟩]]⟩ 0
    ⟨fun _ => [⟨0, NumVal.nonfinite⟩], List.mem_singleton.mpr rfl,
      ⟨0, NumVal.nonfinite⟩, List.mem_singleton.mpr rfl, rfl⟩

/-- A Newton run that reports `Converged` ends at a coefficient vector
whose residual norm is below the tolerance. -/
theorem newtonLoop_converged_norm {n : ℕ} (dp : DiscreteProblem n)
    (ls : LinSolver n) (alpha tol growth : ℚ) :
    ∀ (fuel iters : ℕ) (rprev : ℚ) (u : Fin n → ℚ),
      (newtonLoop dp ls alpha tol growth fuel iters rprev u).state =
        NewtonState.Converged →
      normQ (dp.residual
        (newtonLoop dp ls alpha tol growth fuel iters rprev u).u) < tol := by
  intro fuel
  induction fuel with
  | zero =>
    intro iters rprev u h
    simp [newtonLoop] at h
  | succ fuel ih =>
    intro iters rprev u h
    rw [newtonLoop] at h ⊢
    cases hls : ls.solve (dp.jacobian u) (fun i => -(dp.residual u i)) with
    | none =>
      rw [hls] at h
      simp at h
    | some du =>
      rw [hls] at h
      dsimp only at h ⊢
      by_cases hr : normQ (dp.residual (fun i => u i + alpha * du i)) < tol
      · simp only [if_pos hr] at h ⊢
        exact hr
      · simp only [if_neg hr] at h ⊢
        by_cases hd : growth * rprev <
            normQ (dp.residual (fun i => u i + alpha * du i))
        · rw [if_pos hd] at h
          simp at h
        · rw [if_neg hd] at h ⊢
          exact ih _ _ _ h

/-- C5: the caller-facing solve entry point returns a boolean success
flag that reflects the Newton outcome, and when the flag is true the
returned coefficient-vector buffer holds the converged solution (its
residual norm is below the configured tolerance). -/
theorem C5_solve_newton_contract {n : ℕ} (coeff_vec : Fin n → ℚ)
    (dp : DiscreteProblem n) (solver : LinSolver n)
    (mtx : Matrix (Fin n) (Fin n) ℚ) (rhs : Fin n → ℚ)
    (cfg : NewtonConfig) :
    (solve_newton coeff_vec dp solver mtx rhs cfg).1 =
      decide ((newtonSolve dp solver cfg.alpha cfg.tol cfg.growth
        cfg.maxIter coeff_vec).state = NewtonState.Converged) ∧
    ((solve_newton coeff_vec dp solver mtx rhs cfg).1 = true →
      normQ (dp.residual (solve_newton coeff_vec dp solver mtx rhs cfg).2) <
        cfg.tol) := by
  refine ⟨rfl, ?_⟩
  intro h
  have hst : (newtonSolve dp solver cfg.alpha cfg.tol cfg.growth
      cfg.maxIter coeff_vec).state = NewtonState.Converged :=
    of_decide_eq_true h
  exact newtonLoop_converged_norm dp solver cfg.alpha cfg.tol cfg.growth
    cfg.maxIter 0 (normQ (dp.residual coeff_vec)) coeff_vec hst

/-- The concrete solve used to witness C5 succeeds. -/
theorem solve_newton_example_flag :
    (solve_newton (fun _ => (0 : ℚ))
        (⟨fun u => u, fun _ => 1⟩ : DiscreteProblem 1)
        ⟨fun _ r => some r⟩ 0 0 ⟨1, 1, 1, 1⟩).1 = true := by
  simp [solve_newton, newtonSolve, newtonLoop, normQ]

/-- Witness for C5 at a concrete converging one-dimensional problem. -/
theorem C5_solve_newton_contract_witness :
    (solve_newton (fun _ => (0 : ℚ))
        (⟨fun u => u, fun _ => 1⟩ : DiscreteProblem 1)
        ⟨fun _ r => some r⟩ 0 0 ⟨1, 1, 1, 1⟩).1 = true ∧
    normQ ((⟨fun u => u, fun _ => 1⟩ : DiscreteProblem 1).residual
      (solve_newton (fun _ => (0 : ℚ))
        (⟨fun u => u, fun _ => 1⟩ : DiscreteProblem 1)
        ⟨fun _ r => some r⟩ 0 0 ⟨1, 1, 1, 1⟩).2) < (1 : ℚ) :=
  ⟨solve_newton_example_flag,
    (C5_solve_newton_contract (fun _ => (0 : ℚ))
      (⟨fun u => u, fun _ => 1⟩ : DiscreteProblem 1)
      ⟨fun _ r => some r⟩ 0 0 ⟨1, 1, 1, 1⟩).2 solve_newton_example_flag⟩

/-- C2: for a weak form affine in the unknown field (residual
`u ↦ A·u + c` with exact Jacobian `A`), an exact linear solver, a
positive tolerance, no damping and at least one allowed iteration, the
Newton solver reaches `Converged` in exactly one iteration for every
nonzero initial guess. -/
theorem C2_affine_newton_one_iteration {n : ℕ} (dp : DiscreteProblem n)
    (A : Matrix (Fin n) (Fin n) ℚ) (c : Fin n → ℚ) (ls : LinSolver n)
    (tol growth : ℚ) (maxIter : ℕ) (u0 : Fin n → ℚ)
    (hres : ∀ u, dp.residual u = A.mulVec u + c)
    (hjac : ∀ u, dp.jacobian u = A)
    (hs : ∀ r : Fin n → ℚ, ∃ du, ls.solve A r = some du ∧ A.mulVec du = r)
    (htol : 0 < tol) (hmax : 1 ≤ maxIter) (hu0 : u0 ≠ 0) :
    (newtonSolve dp ls 1 tol growth maxIter u0).state =
      NewtonState.Converged ∧
    (newtonSolve dp ls 1 tol growth maxIter u0).iters = 1 := by
  obtain ⟨k, rfl⟩ : ∃ k, maxIter = k + 1 :=
    ⟨maxIter - 1, (Nat.succ_pred_eq_of_pos hmax).symm⟩
  obtain ⟨du, hdu, hAdu⟩ := hs (fun i => -(dp.residual u0 i))
  have hu2 : (fun i => u0 i + 1 * du i) = u0 + du := by
    funext i
    simp
  have h0 : dp.residual (fun i => u0 i + 1 * du i) = 0 := by
    rw [hu2, hres, Matrix.mulVec_add, hAdu]
    funext i
    simp [hres]
  have hn : normQ (dp.residual (fun i => u0 i + 1 * du i)) = 0 := by
    rw [h0]
    simp [normQ]
  rw [newtonSolve, newtonLoop, hjac, hdu]
  simp only [hn]
  rw [if_pos htol]
  exact ⟨rfl, rfl⟩

/-- Witness for C2 at the one-dimensional affine problem `F(u) = u` with
the identity Jacobian, an exact solver, tolerance 1 and initial guess
1. -/
theorem C2_affine_newton_one_iteration_witness :
    (newtonSolve (⟨fun u => (1 : Matrix (Fin 1) (Fin 1) ℚ).mulVec u + 0,
        fun _ => 1⟩ : DiscreteProblem 1)
      ⟨fun _ r => some r⟩ 1 1 1 1 (fun _ => 1)).state =
      NewtonState.Converged ∧
    (newtonSolve (⟨fun u => (1 : Matrix (Fin 1) (Fin 1) ℚ).mulVec u + 0,
        fun _ => 1⟩ : DiscreteProblem 1)
      ⟨fun _ r => some r⟩ 1 1 1 1 (fun _ => 1)).iters = 1 :=
  C2_affine_newton_one_iteration
    (⟨fun u => (1 : Matrix (Fin 1) (Fin 1) ℚ).mulVec u + 0,
      fun _ => 1⟩ : DiscreteProblem 1)
    1 0 ⟨fun _ r => some r⟩ 1 1 1 (fun _ => 1)
    (fun u => rfl) (fun u => rfl)
    (fun r => ⟨r, rfl, by simp [Matrix.one_mulVec]⟩)
    (by norm_num) (le_refl 1)
    (by
      intro h
      exact one_ne_zero (congrFun h 0))

/-- A Newton run whose residual norm can never pass the tolerance and
never exceeds the divergence growth factor runs out its whole iteration
budget and reports `MaxIterExceeded`. -/
theorem newtonLoop_stuck {n : ℕ} (dp : DiscreteProblem n) (ls : LinSolver n)
    (alpha tol growth : ℚ)
    (hls : ∀ (M : Matrix (Fin n) (Fin n) ℚ) (r : Fin n → ℚ),
      (ls.solve M r).isSome = true)
    (hnc : ∀ u : Fin n → ℚ, ¬ normQ (dp.residual u) < tol)
    (hnd : ∀ u v : Fin n → ℚ,
      ¬ growth * normQ (dp.residual u) < normQ (dp.residual v)) :
    ∀ (fuel iters : ℕ) (w u : Fin n → ℚ),
      (newtonLoop dp ls alpha tol growth fuel iters
        (normQ (dp.residual w)) u).state = NewtonState.MaxIterExceeded ∧
      (newtonLoop dp ls alpha tol growth fuel iters
        (normQ (dp.residual w)) u).iters = iters + fuel := by
  intro fuel
  induction fuel with
  | zero =>
    intro iters w u
    exact ⟨rfl, rfl⟩
  | succ fuel ih =>
    intro iters w u
    obtain ⟨du, hdu⟩ := Option.isSome_iff_exists.mp
      (hls (dp.jacobian u) (fun i => -(dp.residual u i)))
    rw [newtonLoop]
    rw [hdu]
    simp only [if_neg (hnc (fun i => u i + alpha * du i)),
      if_neg (hnd w (fun i => u i + alpha * du i))]
    have h := ih (iters + 1) (fun i => u i + alpha * du i)
      (fun i => u i + alpha * du i)
    exact ⟨h.1, by rw [h.2]; omega⟩

/-- C7: when convergence is not reached within the configured maximum
iteration count, the solver returns `MaxIterExceeded` as an ordinary
value of the result type after exactly `maxIter` iterations, and the
caller-facing entry point reports it as a non-fatal `false` flag — the
core forces no termination (the reference caller decides what to do with
the flag). -/
theorem C7_max_iter_exceeded_reported {n : ℕ} (dp : DiscreteProblem n)
    (ls : LinSolver n) (alpha tol growth : ℚ) (maxIter : ℕ)
    (u0 : Fin n → ℚ)
    (hls : ∀ (M : Matrix (Fin n) (Fin n) ℚ) (r : Fin n → ℚ),
      (ls.solve M r).isSome = true)
    (hnc : ∀ u : Fin n → ℚ, ¬ normQ (dp.residual u) < tol)
    (hnd : ∀ u v : Fin n → ℚ,
      ¬ growth * normQ (dp.residual u) < normQ (dp.residual v)) :
    (newtonSolve dp ls alpha tol growth maxIter u0).state =
      NewtonState.MaxIterExceeded ∧
    (newtonSolve dp ls alpha tol growth maxIter u0).iters = maxIter ∧
    (solve_newton u0 dp ls 0 0 ⟨alpha, tol, growth, maxIter⟩).1 = false := by
  have h := newtonLoop_stuck dp ls alpha tol growth hls hnc hnd
    maxIter 0 u0 u0
  refine ⟨h.1, ?_, ?_⟩
  · rw [newtonSolve, h.2]
    omega
  · simp only [solve_newton, newtonSolve]
    rw [decide_eq_false_iff_not]
    intro hc
    rw [h.1] at hc
    simp at hc

/-- Witness for C7: a one-dimensional problem with constant unit residual
and zero tolerance exhausts its two-iteration budget and reports
`MaxIterExceeded` with a `false` success flag. -/
theorem C7_max_iter_exceeded_reported_witness :
    (newtonSolve (⟨fun _ => fun _ => 1, fun _ => 1⟩ : DiscreteProblem 1)
        ⟨fun _ r => some r⟩ 1 0 1 2 (fun _ => 0)).state =
      NewtonState.MaxIterExceeded ∧
    (newtonSolve (⟨fun _ => fun _ => 1, fun _ => 1⟩ : DiscreteProblem 1)
        ⟨fun _ r => some r⟩ 1 0 1 2 (fun _ => 0)).iters = 2 ∧
    (solve_newton (fun _ => 0)
        (⟨fun _ => fun _ => 1, fun _ => 1⟩ : DiscreteProblem 1)
        ⟨fun _ r => some r⟩ 0 0 ⟨1, 0, 1, 2⟩).1 = false :=
  C7_max_iter_exceeded_reported
    (⟨fun _ => fun _ => 1, fun _ => 1⟩ : DiscreteProblem 1)
    ⟨fun _ r => some r⟩ 1 0 1 2 (fun _ => 0)
    (fun _ _ => rfl)
    (by
      intro u
      simp [normQ])
    (by
      intro u v
      simp [normQ])
